import Mathlib

/-!
Verification of the rate-limit-optimizer core against its specification.

The Python sources under src/rate_limit_optimizer are shallowly embedded:
pure fragments become Lean functions, HTTP and clock effects become
explicit parameters (a probe outcome, per-tier outcomes, the current time,
random draws), Python floats become rationals, Python ints become Int/Nat,
raised exceptions become Except values, and Python dicts of headers become
association lists (first binding wins on lookup, iteration in list order).
Wall-clock durations and timestamps that no claim inspects are omitted or
carried as abstract rational instants.
-/

namespace RLO

/-- Python str.lower (ASCII case folding suffices for the header names
involved). -/
def pyLower (s : String) : String :=
  ⟨s.data.map Char.toLower⟩

/-- Python str.strip of surrounding whitespace. -/
def trimChars (cs : List Char) : List Char :=
  ((cs.dropWhile Char.isWhitespace).reverse.dropWhile Char.isWhitespace).reverse

/-- Python substring test (the `in` operator on strings, used on lowered
header names in detection.py). -/
def strIn (needle hay : String) : Bool :=
  decide (needle.data <:+: hay.data)

/-- Digits of a decimal numeral to a natural number; none when empty or a
non-digit occurs. -/
def digitsToNat (cs : List Char) : Option Nat :=
  if cs = [] then none
  else if cs.all Char.isDigit then
    some (cs.foldl (fun a c => a * 10 + (c.toNat - 48)) 0)
  else none

/-- Python `int(s)` on a string: optional surrounding whitespace, optional
sign, decimal digits; `none` models the ValueError path. -/
def pyInt (s : String) : Option Int :=
  match trimChars s.data with
  | '+' :: rest => (digitsToNat rest).map Int.ofNat
  | '-' :: rest => (digitsToNat rest).map (fun n => -(n : Int))
  | cs => (digitsToNat cs).map Int.ofNat

/-- Python truthiness of an optional string (None and the empty string are
falsy). -/
def pyTruthy : Option String → Bool
  | none => false
  | some s => s ≠ ""

/-- Python `a or b` on two optional strings (falsy first operand falls
through to the second). -/
def pyOrStr (a b : Option String) : Option String :=
  if pyTruthy a then a else b

/-- Python `int(q)` on a non-integral number truncates toward zero. -/
def pyTrunc (q : ℚ) : ℤ :=
  if 0 ≤ q then ⌊q⌋ else -⌊-q⌋

/-- Response headers as an association list (dict with insertion order). -/
abbrev Headers := List (String × String)

/-- Python `dict.get` on the header map. -/
def hget (hs : Headers) (k : String) : Option String :=
  (hs.find? (fun p => p.1 == k)).map (·.2)

/-- DetectionMethod enum from models.py. -/
inductive DetectionMethod where
  | headers
  | testing
  | combined
deriving DecidableEq, Repr

/-- RateLimit model from models.py (reset_time kept as an abstract epoch
second; its exact datetime value is never inspected by the core logic). -/
structure RateLimit where
  limit : ℤ
  remaining : ℤ
  reset_time : Option ℤ
  window_seconds : ℤ
  detected_via : DetectionMethod
deriving DecidableEq, Repr

/-- Pydantic construction of a RateLimit: Field(gt=0) on limit,
Field(ge=0) on remaining, Field(gt=0) on window_seconds raise
ValidationError; the custom validator clamps remaining down to limit. -/
def mkRateLimit (limit remaining : ℤ) (reset : Option ℤ) (window : ℤ)
    (via : DetectionMethod) : Except String RateLimit :=
  if limit ≤ 0 then .error "limit must be greater than 0"
  else if remaining < 0 then .error "remaining must be at least 0"
  else if window ≤ 0 then .error "window_seconds must be greater than 0"
  else .ok ⟨limit, if remaining > limit then limit else remaining, reset, window, via⟩

/-- Permitted requests per second of a RateLimit (models.py property;
floats modelled as rationals). -/
def rps (l : RateLimit) : ℚ :=
  (l.limit : ℚ) / (l.window_seconds : ℚ)

/-- Outcome regimes of datetime.fromtimestamp on a successfully parsed
integer timestamp (CPython on 64-bit Linux). -/
inductive TsOutcome where
  | inRange
  | valueErr
  | fatal
deriving DecidableEq, Repr

/-- Smallest epoch second representable as a datetime
(0001-01-01T00:00:00 UTC). -/
def tsDatetimeMin : ℤ := -62135596800

/-- Largest epoch second representable as a datetime
(9999-12-31T23:59:59 UTC). -/
def tsDatetimeMax : ℤ := 253402300799

/-- Classify what datetime.fromtimestamp(ts) does: inside the datetime
range it succeeds; outside it but within time_t it raises ValueError
(year out of range), which except ValueError catches; at or beyond 2^63
in magnitude the time_t conversion raises OverflowError, which the
source's ValueError guards do NOT catch. Platform approximations kept by
this model: the range boundary actually shifts by the local UTC offset,
and for years beyond what tm_year holds (still below 2^63 seconds)
glibc's localtime fails with an uncaught OSError, a band modelled here
as the caught ValueError regime; no claim input lies near either
boundary. -/
def classifyTs (ts : ℤ) : TsOutcome :=
  if tsDatetimeMin ≤ ts ∧ ts ≤ tsDatetimeMax then .inRange
  else if -(2 ^ 63) < ts ∧ ts < 2 ^ 63 then .valueErr
  else .fatal

/-- The reset conversion of _extract_basic_limit on a parsed timestamp.
In range: reset_time = fromtimestamp(ts). The caught-ValueError regime
falls into the seconds-until-reset fallback, whose int() succeeds again,
and datetime.now() + timedelta(seconds=ts) then overflows: OverflowError
escapes the outer except (ValueError, TypeError). Beyond time_t the
OverflowError is raised directly. (In a clock-dependent sliver of width
now just below the datetime minimum the fallback would instead succeed;
that real-time-dependent corner is modelled as the error it produces
everywhere else in the band, and no claim or theorem touches it.) -/
def basicResetConvert (ts : ℤ) : Except String (Option ℤ) :=
  match classifyTs ts with
  | .inRange => .ok (some ts)
  | .valueErr => .error "OverflowError: date value out of range"
  | .fatal => .error "OverflowError: timestamp out of range for platform time_t"

/-- HeaderAnalyzer._extract_basic_limit. Parse failures and the pydantic
validation of the constructed record are caught by its own try/except
(ValueError, TypeError) and yield ok none, but the OverflowError/OSError
of the reset-timestamp conversion escapes those guards and propagates as
an error. -/
def extractBasicLimit (hs : Headers) : Except String (Option RateLimit) := do
  let limit_str := pyOrStr (hget hs "X-RateLimit-Limit") (hget hs "X-Rate-Limit-Limit")
  let remaining_str := pyOrStr (hget hs "X-RateLimit-Remaining") (hget hs "X-Rate-Limit-Remaining")
  let reset_str := pyOrStr (hget hs "X-RateLimit-Reset") (hget hs "X-Rate-Limit-Reset")
  let window_str := pyOrStr (hget hs "X-RateLimit-Window") (hget hs "X-Rate-Limit-Window")
  if ¬ pyTruthy limit_str then pure none
  else
    match pyInt (limit_str.getD "") with
    | none => pure none
    | some limit =>
      let remaining? : Option ℤ :=
        if pyTruthy remaining_str then pyInt (remaining_str.getD "") else some limit
      match remaining? with
      | none => pure none
      | some remaining => do
        let reset_time : Option ℤ ←
          if pyTruthy reset_str then
            match pyInt (reset_str.getD "") with
            | some ts => basicResetConvert ts
            | none => pure none
          else pure none
        let window_seconds : ℤ :=
          if pyTruthy window_str then
            match pyInt (window_str.getD "") with
            | some w => w
            | none => 60
          else 60
        match mkRateLimit limit remaining reset_time window_seconds .headers with
        | .ok rl => pure (some rl)
        | .error _ => pure none

/-- Accumulator of HeaderAnalyzer._extract_tier_limit while scanning the
header map. -/
structure TierScan where
  limit_value : Option ℤ
  remaining_value : Option ℤ
  reset_time : Option ℤ
deriving Repr

/-- One header considered by HeaderAnalyzer._extract_tier_limit: if some
pattern occurs in the lowered name, the limit/remaining/reset branch
fires. A value that fails int() leaves the accumulator unchanged (the
branch's except ValueError continues), and in the reset branch a
fromtimestamp ValueError (year out of range) is likewise caught, but a
fromtimestamp OverflowError escapes the except ValueError and
propagates. -/
def tierScanStep (patterns : List String) (st : TierScan) (kv : String × String) :
    Except String TierScan :=
  let kl := (pyLower kv.1)
  if patterns.any (fun p => strIn (pyLower p) kl) then
    if strIn "limit" kl ∧ ¬ strIn "remaining" kl then
      match pyInt kv.2 with
      | some n => .ok { st with limit_value := some n }
      | none => .ok st
    else if strIn "remaining" kl then
      match pyInt kv.2 with
      | some n => .ok { st with remaining_value := some n }
      | none => .ok st
    else if strIn "reset" kl then
      match pyInt kv.2 with
      | some n =>
        match classifyTs n with
        | .inRange => .ok { st with reset_time := some n }
        | .valueErr => .ok st
        | .fatal => .error "OverflowError: timestamp out of range for platform time_t"
      | none => .ok st
    else .ok st
  else .ok st

/-- The header loop of _extract_tier_limit: a raise aborts the scan. -/
def tierScanRun (patterns : List String) : TierScan → Headers → Except String TierScan
  | st, [] => .ok st
  | st, kv :: rest => do
    let st2 ← tierScanStep patterns st kv
    tierScanRun patterns st2 rest

/-- HeaderAnalyzer._extract_tier_limit. Neither the scan's reset
conversion nor the final RateLimit construction is guarded against
non-ValueError exceptions, so a fromtimestamp OverflowError and a
pydantic ValidationError (out-of-range numeric value) both propagate to
the caller as errors. -/
def extractTierLimit (hs : Headers) (patterns : List String) (window : ℤ) :
    Except String (Option RateLimit) := do
  let st ← tierScanRun patterns ⟨none, none, none⟩ hs
  match st.limit_value with
  | none => pure none
  | some lv =>
    (mkRateLimit lv (st.remaining_value.getD lv) st.reset_time window .headers).map some

/-- Tier patterns table of HeaderAnalyzer._extract_multi_tier_limits, in
dict insertion order. -/
def tierPatterns : List (ℤ × List String) :=
  [ (10, ["10s", "10_seconds", "10-seconds"])
  , (60, ["minute", "min", "60"])
  , (900, ["15min", "15_minutes", "15-minutes"])
  , (3600, ["hour", "hr", "3600"])
  , (86400, ["day", "daily", "86400"]) ]

/-- The loop of HeaderAnalyzer._extract_multi_tier_limits over the given
tiers: collect the per-tier records in tier order, propagating the first
construction error. -/
def extractTierList (hs : Headers) : List (ℤ × List String) → Except String (List RateLimit)
  | [] => .ok []
  | t :: ts => do
    let o ← extractTierLimit hs t.2 t.1
    let rest ← extractTierList hs ts
    match o with
    | some rl => pure (rl :: rest)
    | none => pure rest

/-- HeaderAnalyzer._extract_multi_tier_limits. -/
def extractMultiTierLimits (hs : Headers) : Except String (List RateLimit) :=
  extractTierList hs tierPatterns

/-- One iteration of HeaderAnalyzer._filter_valid_limits: drop a
non-positive ceiling, clamp remaining into [0, limit], skip an already
seen window. -/
def filterValidStep (acc : List RateLimit × List ℤ) (l : RateLimit) :
    List RateLimit × List ℤ :=
  if l.limit ≤ 0 then acc
  else
    let l' :=
      if l.remaining < 0 then { l with remaining := 0 }
      else if l.remaining > l.limit then { l with remaining := l.limit }
      else l
    if l'.window_seconds ∈ acc.2 then acc
    else (acc.1 ++ [l'], acc.2 ++ [l'.window_seconds])

/-- HeaderAnalyzer._filter_valid_limits. -/
def filterValidLimits (limits : List RateLimit) : List RateLimit :=
  (limits.foldl filterValidStep ([], [])).1

/-- HeaderAnalyzer.extract_rate_limits: basic record, then tier records,
then the validity filter. Errors raised by the unguarded tier-record
construction propagate. -/
def extractRateLimits (hs : Headers) : Except String (List RateLimit) := do
  let basic ← extractBasicLimit hs
  let multi ← extractMultiTierLimits hs
  pure (filterValidLimits (basic.toList ++ multi))

/-- One entry of the list built by TierTester._send_request_batch. The
dicts appended there carry success, status_code, headers and retry_after;
none of the three construction sites ever sets a current_rate key, which
the Option field makes explicit. -/
structure BatchResult where
  success : Bool
  status_code : ℤ
  headers : Headers
  retry_after : Option ℤ
  current_rate : Option ℤ
deriving Repr

/-- The response dict built in TierTester._send_request_batch for a
completed HTTP exchange (detection.py lines 362-368): no current_rate
key is ever inserted. -/
def mkBatchResult (status : ℤ) (hs : Headers) (retry_after : Option ℤ) : BatchResult :=
  ⟨status == 200, status, hs, retry_after, none⟩

/-- TierTester._extract_limit_from_response: prefer a header-derived limit
whose window matches; otherwise synthesize a probed record. The
response_result.get call falls back to 10 when the current_rate key is
absent. The reset time computed from a truthy retry_after is carried as
the relative retry_after seconds. -/
def extractLimitFromResponse (r : BatchResult) (window_seconds : ℤ) :
    Except String RateLimit := do
  let limits ← extractRateLimits r.headers
  match limits.find? (fun l => l.window_seconds == window_seconds) with
  | some l => pure l
  | none =>
    let limit_header := pyOrStr (hget r.headers "X-RateLimit-Limit") (hget r.headers "X-Rate-Limit-Limit")
    let limit_value : Option ℤ :=
      if pyTruthy limit_header then pyInt (limit_header.getD "") else none
    let limit_value2 : ℤ :=
      match limit_value with
      | some v => v
      | none => max 1 ((r.current_rate.getD 10) - 1)
    let reset_time : Option ℤ :=
      match r.retry_after with
      | some ra => if ra ≠ 0 then some ra else none
      | none => none
    mkRateLimit limit_value2 0 reset_time window_seconds .testing

/-- TierTestResult from models.py, restricted to the fields the detector
logic reads or the error path writes (wall-clock timing fields omitted). -/
structure TierTestResult where
  tier_name : String
  limit_found : Bool
  detected_limit : Option RateLimit
  requests_sent : ℕ
  successful_requests : ℕ
  error_rate : ℚ
  error_details : String
deriving DecidableEq, Repr

/-- The TierTestResult built in MultiTierDetector._test_tiers when a tier
test raises (detection.py lines 551-560). -/
def errorTierResult (name msg : String) : TierTestResult :=
  ⟨name, false, none, 0, 0, 1, msg⟩

/-- MultiTierDetector._test_tiers: each tier outcome is either the tester
result or a raised exception converted to an error result; when the
strategy requests stop_on_first_limit, iteration stops after the first
found limit. The HTTP work of each tester is abstracted into the given
per-tier outcome. -/
def testTiers (stopOnFirstLimit : Bool) :
    List (String × Except String TierTestResult) → List TierTestResult
  | [] => []
  | (name, out) :: rest =>
    match out with
    | .ok r =>
      if r.limit_found ∧ stopOnFirstLimit then [r]
      else r :: testTiers stopOnFirstLimit rest
    | .error e => errorTierResult name e :: testTiers stopOnFirstLimit rest

/-- MultiTierDetector._analyze_headers: the whole probe request and header
parse is wrapped in except Exception, so a failed probe (or a parse error)
yields the empty list instead of propagating. -/
def analyzeHeaders (probe : Except String Headers) : List RateLimit :=
  match probe with
  | .error _ => []
  | .ok hs =>
    match extractRateLimits hs with
    | .ok limits => limits
    | .error _ => []

/-- Window-label table of MultiTierDetector._find_most_restrictive_limit. -/
def tierNameOf (w : ℤ) : String :=
  if w = 10 then "10_seconds"
  else if w = 60 then "minute"
  else if w = 900 then "15_minutes"
  else if w = 3600 then "hour"
  else if w = 86400 then "day"
  else toString w ++ "s"

/-- MultiTierDetector._find_most_restrictive_limit: the label of the first
limit with strictly smallest requests-per-second. -/
def findMostRestrictive (limits : List RateLimit) : String :=
  (limits.foldl
    (fun (acc : Option ℚ × String) l =>
      match acc.1 with
      | none => (some (rps l), tierNameOf l.window_seconds)
      | some m => if rps l < m then (some (rps l), tierNameOf l.window_seconds) else acc)
    (none, "unknown")).2

/-- MultiTierDetector._calculate_recommended_rate: take the limit whose
requests_per_second is smallest (first wins on ties, as Python min does),
apply int(limit * 0.9), floor at 1. -/
def calcRecommendedRate (limits : List RateLimit) : ℤ :=
  match limits with
  | [] => 1
  | l :: ls =>
    let min_limit := ls.foldl (fun acc x => if rps x < rps acc then x else acc) l
    max 1 (pyTrunc ((min_limit.limit : ℚ) * (9 / 10)))

/-- The per-window slots and aggregate fields of MultiTierResult that the
detector writes (timestamp and wall-clock durations omitted; each
consistency warning is carried as the pair of limits the diagnostic string
cites). -/
structure MultiTierResult where
  base_url : String
  endpoint : String
  ten_second_limit : Option RateLimit
  minute_limit : Option RateLimit
  fifteen_minute_limit : Option RateLimit
  hour_limit : Option RateLimit
  day_limit : Option RateLimit
  most_restrictive : String
  recommended_rate : ℤ
  limits_found : ℕ
  total_requests : ℕ
  tier_results : List TierTestResult
  consistency_warnings : Option (List (RateLimit × RateLimit))
  endpoints_tested : List String
deriving DecidableEq, Repr

/-- One iteration of MultiTierDetector._assign_limits_to_tiers: the limit
overwrites the slot of its window. -/
def assignStep (r : MultiTierResult) (l : RateLimit) : MultiTierResult :=
  if l.window_seconds = 10 then { r with ten_second_limit := some l }
  else if l.window_seconds = 60 then { r with minute_limit := some l }
  else if l.window_seconds = 900 then { r with fifteen_minute_limit := some l }
  else if l.window_seconds = 3600 then { r with hour_limit := some l }
  else if l.window_seconds = 86400 then { r with day_limit := some l }
  else r

/-- MultiTierDetector._assign_limits_to_tiers: limits later in the list
win their window slot. -/
def assignLimitsToTiers (r : MultiTierResult) (limits : List RateLimit) : MultiTierResult :=
  limits.foldl assignStep r

/-- Stable insertion used to model Python sorted(key=window_seconds)
(Timsort is stable: equal windows keep their relative order). -/
def insertByWindow (x : RateLimit) : List RateLimit → List RateLimit
  | [] => [x]
  | y :: ys =>
    if y.window_seconds ≤ x.window_seconds then y :: insertByWindow x ys
    else x :: y :: ys

/-- Stable sort by window used by MultiTierDetector._validate_consistency. -/
def sortByWindow (l : List RateLimit) : List RateLimit :=
  l.foldl (fun acc x => insertByWindow x acc) []

/-- Adjacent pairs of a list. -/
def adjacentPairs : List RateLimit → List (RateLimit × RateLimit)
  | [] => []
  | [_] => []
  | x :: y :: rest => (x, y) :: adjacentPairs (y :: rest)

/-- MultiTierDetector._validate_consistency: after a stable sort by
window, warn for each adjacent pair whose earlier requests-per-second
exceeds the later one by more than ten percent. -/
def validateConsistency (limits : List RateLimit) : List (RateLimit × RateLimit) :=
  if limits.length < 2 then []
  else (adjacentPairs (sortByWindow limits)).filter
    (fun p => rps p.1 > rps p.2 * (11 / 10))

/-- MultiTierDetector.detect_all_rate_limits, with the network effects
abstracted: the probe outcome stands for the initial request of
_analyze_headers and each tier outcome stands for one tester.test_tier
call inside _test_tiers. -/
def detectAllRateLimits (base_url endpoint : String)
    (probe : Except String Headers)
    (tierOuts : List (String × Except String TierTestResult))
    (validate_consistency : Bool) (stopOnFirstLimit : Bool) : MultiTierResult :=
  let header_limits := analyzeHeaders probe
  let tested_limits := testTiers stopOnFirstLimit tierOuts
  let all_limits := header_limits ++ tested_limits.filterMap (·.detected_limit)
  let result : MultiTierResult :=
    { base_url := base_url
      endpoint := endpoint
      ten_second_limit := none
      minute_limit := none
      fifteen_minute_limit := none
      hour_limit := none
      day_limit := none
      most_restrictive := findMostRestrictive all_limits
      recommended_rate := calcRecommendedRate all_limits
      limits_found := all_limits.length
      total_requests := (tested_limits.map (·.requests_sent)).sum
      tier_results := tested_limits
      consistency_warnings := none
      endpoints_tested := [endpoint] }
  let result := assignLimitsToTiers result all_limits
  if validate_consistency then
    { result with consistency_warnings := some (validateConsistency all_limits) }
  else result

/-- Exceptions that can trigger the retry logic in error_handling.py.
A ClientResponseError with a status attribute is modelled by httpStatus. -/
inductive PyExc where
  | rateLimitExceeded (retry_after : Option ℚ)
  | serverError
  | networkError
  | timeoutExc
  | authError
  | httpStatus (code : ℤ)
  | otherExc
deriving DecidableEq, Repr

/-- Truthiness of exception.retry_after in _calculate_delay (None and 0.0
are falsy). -/
def hasTruthyRetryAfter : PyExc → Bool
  | .rateLimitExceeded (some ra) => ra ≠ 0
  | _ => false

/-- CircuitBreakerState enum from models.py. -/
inductive CBState where
  | closed
  | opened
  | halfOpen
deriving DecidableEq, Repr

/-- The CircuitBreaker object of error_handling.py: configuration plus
mutable counters; datetime instants are abstract rationals. -/
structure CircuitBreaker where
  failure_threshold : ℕ
  recovery_timeout : ℚ
  success_threshold : ℕ
  half_open_max_calls : ℕ
  state : CBState
  failure_count : ℕ
  success_count : ℕ
  last_failure_time : Option ℚ
  half_open_calls : ℕ
deriving Repr

/-- CircuitBreaker._should_attempt_reset at clock instant now. -/
def shouldAttemptReset (cb : CircuitBreaker) (now : ℚ) : Bool :=
  match cb.last_failure_time with
  | none => true
  | some t => now - t ≥ cb.recovery_timeout

/-- CircuitBreaker._move_to_half_open. -/
def moveToHalfOpen (cb : CircuitBreaker) : CircuitBreaker :=
  { cb with state := .halfOpen, half_open_calls := 0 }

/-- CircuitBreaker._move_to_closed. -/
def moveToClosed (cb : CircuitBreaker) : CircuitBreaker :=
  { cb with state := .closed, failure_count := 0, success_count := 0 }

/-- CircuitBreaker._move_to_open. -/
def moveToOpen (cb : CircuitBreaker) : CircuitBreaker :=
  { cb with state := .opened, success_count := 0 }

/-- CircuitBreaker._on_success. -/
def onSuccess (cb : CircuitBreaker) : CircuitBreaker :=
  if cb.state = .halfOpen then
    let cb := { cb with success_count := cb.success_count + 1 }
    if cb.success_count ≥ cb.success_threshold then moveToClosed cb else cb
  else { cb with failure_count := 0 }

/-- CircuitBreaker._on_failure at clock instant now. -/
def onFailure (cb : CircuitBreaker) (now : ℚ) : CircuitBreaker :=
  let cb := { cb with failure_count := cb.failure_count + 1, last_failure_time := some now }
  if cb.state = .halfOpen then moveToOpen cb
  else if cb.failure_count ≥ cb.failure_threshold then moveToOpen cb
  else cb

/-- The two synthetic rejections CircuitBreaker.call can raise before
invoking the wrapped function. -/
inductive BreakerReject where
  | rejectedOpen
  | rejectedHalfOpenMax
deriving DecidableEq, Repr

/-- The first check of CircuitBreaker.call: when OPEN, either move to
HALF_OPEN (reset possible) or reject as breaker-open. -/
def breakerOpenCheck (cb : CircuitBreaker) (now : ℚ) :
    CircuitBreaker × Option BreakerReject :=
  if cb.state = .opened then
    if shouldAttemptReset cb now then (moveToHalfOpen cb, none)
    else (cb, some BreakerReject.rejectedOpen)
  else (cb, none)

/-- The second check of CircuitBreaker.call: in HALF_OPEN, admit at most
half_open_max_calls probes. -/
def breakerHalfOpenCheck (cb : CircuitBreaker) :
    CircuitBreaker × Option BreakerReject :=
  if cb.state = .halfOpen then
    if cb.half_open_calls ≥ cb.half_open_max_calls then
      (cb, some BreakerReject.rejectedHalfOpenMax)
    else ({ cb with half_open_calls := cb.half_open_calls + 1 }, none)
  else (cb, none)

/-- The gate at the top of CircuitBreaker.call: the OPEN check (reset or
reject) followed by the HALF_OPEN admission check, returning the breaker
as mutated so far and an optional rejection (a raise short-circuits, so
the second check runs only when the first did not reject). The wrapped
function is invoked only when no rejection is produced. -/
def breakerGate (cb : CircuitBreaker) (now : ℚ) : CircuitBreaker × Option BreakerReject :=
  match breakerOpenCheck cb now with
  | (cb1, some r) => (cb1, some r)
  | (cb1, none) => breakerHalfOpenCheck cb1

/-- Observable outcome of one CircuitBreaker.call. -/
inductive CallOutcome (α : Type) where
  | rejected (r : BreakerReject)
  | returned (v : α)
  | raised (e : PyExc)
deriving Repr

/-- CircuitBreaker.call: the gate, then the wrapped function (whose result
is the funcResult parameter) with _on_success or _on_failure. On a
rejection the wrapped function is never invoked, so funcResult is ignored
and the breaker is returned as the gate left it. -/
def breakerCall {α : Type} (cb : CircuitBreaker) (now : ℚ)
    (funcResult : Except PyExc α) : CircuitBreaker × CallOutcome α :=
  let (cb, rejected) := breakerGate cb now
  match rejected with
  | some r => (cb, .rejected r)
  | none =>
    match funcResult with
    | .ok v => (onSuccess cb, .returned v)
    | .error e => (onFailure cb now, .raised e)

/-- RetryPolicy from models.py (pydantic bounds: max_retries ≥ 0 becomes
a natural number; delays and multiplier are rationals). -/
structure RetryPolicy where
  max_retries : ℕ
  base_delay : ℚ
  backoff_multiplier : ℚ
  max_delay : ℚ
  retry_on_codes : List ℤ
  retry_on_timeout : Bool
  jitter : Bool
deriving Repr

/-- ExponentialBackoffRetry._should_retry. -/
def shouldRetry (p : RetryPolicy) (e : PyExc) (attempt : ℕ) : Bool :=
  if attempt > p.max_retries then false
  else
    match e with
    | .rateLimitExceeded _ => true
    | .serverError => true
    | .networkError => true
    | .timeoutExc => p.retry_on_timeout
    | .authError => false
    | .httpStatus s => s ∈ p.retry_on_codes
    | .otherExc => false

/-- ExponentialBackoffRetry._calculate_delay; the rand parameter is the
random.random() draw used by the jitter branch. -/
def calcDelay (p : RetryPolicy) (attempt : ℕ) (e : PyExc) (rand : ℚ) : ℚ :=
  if hasTruthyRetryAfter e then
    match e with
    | .rateLimitExceeded (some ra) => min ra p.max_delay
    | _ => 0
  else
    let delay := p.base_delay * p.backoff_multiplier ^ (attempt - 1)
    let delay := min delay p.max_delay
    if p.jitter then delay + delay * (1 / 10) * rand else delay

/-- Outcome of execute_with_retry, restricted to the fields the claims
read (wall-clock duration and the response payload are omitted). -/
structure RetryOutcome where
  success : Bool
  attempts_made : ℕ
  final_error : Option PyExc
deriving Repr

/-- The while loop of ExponentialBackoffRetry.execute_with_retry, entered
with the current value of the attempts counter; outcomes k is the result
of the k-th invocation of the wrapped function (0-based). -/
def expRetryLoop (p : RetryPolicy) (outcomes : ℕ → Except PyExc Unit)
    (attempts : ℕ) : RetryOutcome :=
  if _h : attempts ≤ p.max_retries then
    let a := attempts + 1
    match outcomes attempts with
    | .ok _ => ⟨true, a, none⟩
    | .error e =>
      if ¬ shouldRetry p e a ∨ a > p.max_retries then ⟨false, a, some e⟩
      else expRetryLoop p outcomes a
  else ⟨false, attempts, none⟩
termination_by p.max_retries + 1 - attempts

/-- ExponentialBackoffRetry.execute_with_retry (sleeps abstracted away;
the counter starts at 0). -/
def execWithRetryExp (p : RetryPolicy) (outcomes : ℕ → Except PyExc Unit) : RetryOutcome :=
  expRetryLoop p outcomes 0

/-- The while loop of LinearBackoffRetry.execute_with_retry: same shape
but the only break condition on an exception is the attempt bound. -/
def linRetryLoop (p : RetryPolicy) (outcomes : ℕ → Except PyExc Unit)
    (attempts : ℕ) : RetryOutcome :=
  if _h : attempts ≤ p.max_retries then
    let a := attempts + 1
    match outcomes attempts with
    | .ok _ => ⟨true, a, none⟩
    | .error e =>
      if a > p.max_retries then ⟨false, a, some e⟩
      else linRetryLoop p outcomes a
  else ⟨false, attempts, none⟩
termination_by p.max_retries + 1 - attempts

/-- LinearBackoffRetry.execute_with_retry. -/
def execWithRetryLin (p : RetryPolicy) (outcomes : ℕ → Except PyExc Unit) : RetryOutcome :=
  linRetryLoop p outcomes 0

/-- Configuration of PatternAvoidanceRotationStrategy (rotation.py). -/
structure PatternCfg where
  avoid_patterns : Bool
  max_consecutive_same : ℕ
  pattern_detection_window : ℕ
  randomization_factor : ℚ
deriving Repr

/-- Python list[-k:] (for k = 0 the slice is the whole list). -/
def pyLastSlice (l : List String) (k : ℕ) : List String :=
  if k = 0 then l else l.drop (l.length - k)

/-- deque(maxlen=w).append: push on the right, dropping from the left
beyond the window. -/
def dequePush (w : ℕ) (h : List String) (x : String) : List String :=
  let h2 := h ++ [x]
  if h2.length > w then h2.drop (h2.length - w) else h2

/-- PatternAvoidanceRotationStrategy._filter_consecutive_repeats: when the
last max_consecutive_same history entries are all one endpoint, exclude
that endpoint. -/
def filterConsecutiveRepeats (cfg : PatternCfg) (hist : List String)
    (endpoints : List String) : List String :=
  if hist.length < cfg.max_consecutive_same then endpoints
  else
    match pyLastSlice hist cfg.max_consecutive_same with
    | [] => endpoints
    | e :: rest =>
      if rest.all (· == e) then endpoints.filter (· ≠ e) else endpoints

/-- PatternAvoidanceRotationStrategy._filter_patterns: find the first
repeated 2-gram (AB followed by AB) in the history and exclude the
endpoint that would continue it. -/
def filterPatterns (hist : List String) (endpoints : List String) : List String :=
  if hist.length < 4 then endpoints
  else
    match (List.range (hist.length - 3)).find?
        (fun i => (hist.drop i).take 2 == (hist.drop (i + 2)).take 2) with
    | some i =>
      match (hist.drop i).take 2 with
      | e :: _ => endpoints.filter (· ≠ e)
      | [] => endpoints
    | none => endpoints

/-- random.choice modelled by an externally supplied index, reduced into
range. -/
def pickAt (l : List String) (i : ℕ) : String :=
  l.getD (i % l.length) ""

/-- One random draw triple feeding get_next_endpoint: the random.random()
value compared with the randomization factor, and the index choice for
each of the two random.choice call sites. -/
structure RotDraw where
  r : ℚ
  iAll : ℕ
  iAvail : ℕ
deriving Repr

/-- PatternAvoidanceRotationStrategy.get_next_endpoint: none models the
ValueError on an empty endpoint list; a single endpoint is returned
without touching the history; otherwise filter consecutive repeats, then
(when enabled and history has at least 2 entries) filter 2-gram patterns,
fall back to the full list when the filters leave nothing, and then with
probability randomization_factor pick from the FULL list, else from the
filtered list; the pick is appended to the bounded history. -/
def availAfterFilters (cfg : PatternCfg) (hist endpoints : List String) : List String :=
  let avail1 := filterConsecutiveRepeats cfg hist endpoints
  if cfg.avoid_patterns ∧ 2 ≤ hist.length then filterPatterns hist avail1
  else avail1

/-- PatternAvoidanceRotationStrategy.get_next_endpoint, with the filter
pipeline factored into availAfterFilters above (the doc comment above
describes the whole operation). -/
def patternNext (cfg : PatternCfg) (hist : List String)
    (endpoints : List String) (d : RotDraw) : Option (String × List String) :=
  match endpoints with
  | [] => none
  | [e] => some (e, hist)
  | _ =>
    let avail2 := availAfterFilters cfg hist endpoints
    let avail3 := if avail2 = [] then endpoints else avail2
    let ep :=
      if d.r < cfg.randomization_factor then pickAt endpoints d.iAll
      else pickAt avail3 d.iAvail
    some (ep, dequePush cfg.pattern_detection_window hist ep)

/-- A sequence of selections produced by the strategy from an initial
history, one per draw (stopping if the endpoint list is empty). -/
def patternRun (cfg : PatternCfg) (endpoints : List String) :
    List String → List RotDraw → List String
  | _, [] => []
  | hist, d :: ds =>
    match patternNext cfg hist endpoints d with
    | none => []
    | some (ep, hist2) => ep :: patternRun cfg endpoints hist2 ds

/-- Whether some element occurs more than k times consecutively in a
list. -/
def hasRunLongerThan (k : ℕ) : List String → Bool
  | [] => false
  | x :: xs =>
    let rec go (prev : String) (len : ℕ) : List String → Bool
      | [] => len > k
      | y :: ys => if y == prev then go prev (len + 1) ys else len > k || go y 1 ys
    go x 1 xs

/-! Concrete inputs used by the counterexamples and witnesses below. -/

/-- Probe headers disclosing minute, hour and day ceilings (the
header-only scenario of the spec). -/
def c1Headers : Headers :=
  [("X-RateLimit-Limit-Minute", "100"), ("X-RateLimit-Limit-Hour", "5000"),
   ("X-RateLimit-Limit-Day", "100000")]

/-- Modelled from the spec (claim C1, also the MultiTierResult invariant
in the spec): min_ceiling is the smallest ceiling among the detected
limits. -/
def specMinCeiling : List RateLimit → ℤ
  | [] => 0
  | l :: ls => ls.foldl (fun m x => min m x.limit) l.limit

/-- A header-derived minute limit of 50 and a probe-derived minute limit
of 100: the two sources disagree on the same window. -/
def c7HeaderLimit : RateLimit := ⟨50, 50, none, 60, .headers⟩

/-- See c7HeaderLimit. -/
def c7ProbedLimit : RateLimit := ⟨100, 0, none, 60, .testing⟩

/-- The detector run of claim C7: probe discloses 50/minute, the tier
test infers 100/minute, consistency validation requested. -/
def c7Result : MultiTierResult :=
  detectAllRateLimits "https://api.example.com" "/v1/data"
    (.ok [("X-RateLimit-Limit", "50")])
    [("minute", .ok ⟨"minute", true, some c7ProbedLimit, 3, 2, 0, ""⟩)]
    true false

/-- A successful 10-second tier outcome used by the C8 counterexample. -/
def c8TierOutcome : TierTestResult :=
  ⟨"10_seconds", true, some ⟨10, 0, none, 10, .testing⟩, 5, 4, 0, ""⟩

/-- The detector run of claim C8: the initial probe raises a network
error while one tier test succeeds. -/
def c8Result : MultiTierResult :=
  detectAllRateLimits "https://api.example.com" "/v1/data"
    (.error "NetworkError: probe failed")
    [("10_seconds", .ok c8TierOutcome)] false false

/-- Pattern-avoidance configuration with the default
max_consecutive_same = 2, window 5 and randomization factor 0.3. -/
def c9Cfg : PatternCfg := ⟨true, 2, 5, 3/10⟩

/-- Three draws whose random value falls below the randomization factor
and whose choice index selects the first endpoint each time. -/
def c9Draws : List RotDraw := [⟨0, 0, 0⟩, ⟨0, 0, 0⟩, ⟨0, 0, 0⟩]

/-! Claim theorems. Several statements compare concrete evaluations of
the embedded code; the Batteries rational operations are irreducible by
default, so those theorems are preceded by unseal to let decide reduce
them. -/

deriving instance DecidableEq for Except

unseal Rat.mul Rat.inv Rat.add Rat.sub in
/-- Claim C2 (code_bug evidence): a 429 whose headers carry no limit for
the window makes the tier tester synthesize remaining = 0, the tier
window and the probed (TESTING) source as the claim says, but the ceiling
is the constant max(1, 10 - 1) = 9: the batch result dict never carries
the current_rate key, so the rate at which the 429 occurred (for example
11, for which the claim demands ceiling 10) cannot influence the
synthesized record. -/
theorem C2_synthesized_ceiling_constant :
    extractLimitFromResponse (mkBatchResult 429 [("Retry-After", "10")] (some 10)) 10 =
      .ok ⟨9, 0, some 10, 10, .testing⟩
    ∧ (mkBatchResult 429 [("Retry-After", "10")] (some 10)).current_rate = none
    ∧ (9 : ℤ) ≠ 11 - 1 := by
  refine ⟨by decide, rfl, by decide⟩

unseal Rat.mul Rat.inv Rat.add Rat.sub in
/-- Claim C8 (counterexample): with the initial zero-cost probe failing
with a network error, the detector still returns a MultiTierResult whose
tier results and slots are populated from the tier tests, so the probe
failure neither propagates nor stops the detection. -/
theorem C8_counterexample :
    c8Result.limits_found = 1
    ∧ c8Result.tier_results = [c8TierOutcome]
    ∧ c8Result.ten_second_limit = some ⟨10, 0, none, 10, .testing⟩ := by
  refine ⟨by decide, by decide, by decide⟩

/-- Claim C8 as amended: MultiTierDetector._analyze_headers catches every
exception of the initial probe and returns no header limits, so detection
with a failed probe proceeds exactly as with a probe that disclosed
nothing; a failure inside an individual tier test is captured as a
TierTestResult with limit_found = false and error_rate = 1 and the
remaining tiers are still processed. -/
theorem C8_probe_failure_swallowed :
    (∀ (bu ep err : String) (touts : List (String × Except String TierTestResult))
        (v s : Bool),
      detectAllRateLimits bu ep (.error err) touts v s =
        detectAllRateLimits bu ep (.ok []) touts v s)
    ∧ (∀ err : String, analyzeHeaders (.error err) = [])
    ∧ (∀ (name msg : String) (stop : Bool) (rest : List (String × Except String TierTestResult)),
        testTiers stop ((name, .error msg) :: rest) =
          errorTierResult name msg :: testTiers stop rest
        ∧ (errorTierResult name msg).limit_found = false
        ∧ (errorTierResult name msg).error_rate = 1) := by
  refine ⟨fun bu ep err touts v s => rfl, fun err => rfl,
    fun name msg stop rest => ⟨rfl, rfl, rfl⟩⟩

unseal Rat.mul Rat.inv Rat.add Rat.sub in
/-- Claim C7 (counterexample): with a header-disclosed 50/minute and a
probe-inferred 100/minute, the minute slot of the merged result holds the
probed limit with the HIGHER ceiling (the last write wins), and the
consistency validation that was requested appends no warning for the
same-window disagreement. -/
theorem C7_counterexample :
    c7Result.minute_limit = some c7ProbedLimit
    ∧ c7ProbedLimit.limit = 100
    ∧ c7HeaderLimit.limit = 50
    ∧ analyzeHeaders (.ok [("X-RateLimit-Limit", "50")]) = [c7HeaderLimit]
    ∧ c7Result.consistency_warnings = some [] := by
  refine ⟨by decide, by decide, by decide, by decide, by decide⟩

unseal Rat.mul Rat.inv Rat.add Rat.sub in
/-- Claim C1 (counterexample): for the detector run on the disclosed
ceilings 100/minute, 5000/hour and 100000/day, the smallest ceiling is
100 yet the recommended rate is 90000 = floor(100000 x 0.9), because the
source anchors the recommendation to the limit with the smallest
requests-per-second (the day tier), not to the smallest ceiling; in
particular recommended_rate is neither equal to nor at most
floor(min_ceiling x (1 - 0.10)) = 90. -/
theorem C1_counterexample :
    (detectAllRateLimits "https://api.example.com" "/v1/data"
        (.ok c1Headers) [] false false).recommended_rate = 90000
    ∧ specMinCeiling (analyzeHeaders (.ok c1Headers)) = 100
    ∧ pyTrunc ((100 : ℚ) * (1 - 1/10)) = 90
    ∧ ¬ ((90000 : ℤ) ≤ 90)
    ∧ (90000 : ℤ) ≠ 90 := by
  refine ⟨by decide, by decide, by decide, by decide, by decide⟩

/-- Claim C6 (counterexample): extract_rate_limits raises in two ways.
A header set whose only entry is the numeric but out-of-range value
X-Rate-Limit-Limit-Minute: 0 makes the unguarded tier construction
raise (pydantic rejects limit = 0), and a basic X-RateLimit-Reset
timestamp of 10^19 seconds reaches datetime.fromtimestamp past 2^63,
whose OverflowError is not caught by the except (ValueError, TypeError)
guard; both contradict the never-raises contract. -/
theorem C6_counterexample :
    extractRateLimits [("X-Rate-Limit-Limit-Minute", "0")] =
      .error "limit must be greater than 0"
    ∧ extractRateLimits
        [("X-RateLimit-Limit", "10"), ("X-RateLimit-Reset", "10000000000000000000")] =
      .error "OverflowError: timestamp out of range for platform time_t" := by
  refine ⟨by decide, by decide⟩

unseal Rat.mul Rat.inv Rat.add Rat.sub in
/-- Claim C9 (counterexample): with two endpoints and
max_consecutive_same = 2, three successive draws whose random value 0
falls below the randomization factor 0.3 make get_next_endpoint pick from
the FULL endpoint list each time, returning endpoint a three times in a
row. -/
theorem C9_counterexample :
    patternRun c9Cfg ["a", "b"] [] c9Draws = ["a", "a", "a"]
    ∧ hasRunLongerThan c9Cfg.max_consecutive_same ["a", "a", "a"] = true
    ∧ 2 ≤ (["a", "b"] : List String).length := by
  refine ⟨by decide, by decide, by decide⟩

/-- Claim C3: while the breaker is OPEN and less than recovery_timeout
has elapsed since the last recorded failure, the call is rejected with
the breaker-open error, the breaker is left unchanged and the wrapped
function is never invoked (the outcome is the same for every possible
function result); once the reset check passes, that call moves the
breaker to HALF_OPEN and is not rejected as breaker-open. -/
theorem C3_breaker_open_gate (cb : CircuitBreaker) (now : ℚ)
    (hopen : cb.state = CBState.opened) :
    (∀ t : ℚ, cb.last_failure_time = some t → now - t < cb.recovery_timeout →
      ∀ (α : Type) (fr : Except PyExc α),
        breakerCall cb now fr = (cb, CallOutcome.rejected BreakerReject.rejectedOpen))
    ∧ (shouldAttemptReset cb now = true →
        (breakerGate cb now).1.state = CBState.halfOpen
        ∧ ∀ (α : Type) (fr : Except PyExc α),
            (breakerCall cb now fr).2 ≠ CallOutcome.rejected BreakerReject.rejectedOpen) := by
  constructor
  · intro t ht hlt α fr
    have hreset : shouldAttemptReset cb now = false := by
      simp only [shouldAttemptReset, ht, ge_iff_le, decide_eq_false_iff_not, not_le]
      exact hlt
    simp [breakerCall, breakerGate, breakerOpenCheck, hopen, hreset]
  · intro hreset
    have hcheck : breakerOpenCheck cb now = (moveToHalfOpen cb, none) := by
      simp [breakerOpenCheck, hopen, hreset]
    have hgate : breakerGate cb now = breakerHalfOpenCheck (moveToHalfOpen cb) := by
      simp [breakerGate, hcheck]
    constructor
    · rw [hgate]
      unfold breakerHalfOpenCheck
      simp only [moveToHalfOpen]
      split_ifs <;> rfl
    · intro α fr
      simp only [breakerCall, hgate]
      unfold breakerHalfOpenCheck
      simp only [moveToHalfOpen]
      split_ifs
      all_goals cases fr <;> simp

/-- An OPEN breaker that recorded its last failure at instant 0 with a
recovery timeout of 60 seconds. -/
def c3Breaker : CircuitBreaker := ⟨5, 60, 3, 5, .opened, 5, 0, some 0, 0⟩

unseal Rat.mul Rat.inv Rat.add Rat.sub in
/-- Witness for claim C3: at instant 30 the call on c3Breaker is rejected
untouched; at instant 61 the gate has moved it to HALF_OPEN. -/
theorem C3_witness :
    breakerCall c3Breaker 30 (Except.ok (0 : ℕ)) =
      (c3Breaker, CallOutcome.rejected BreakerReject.rejectedOpen)
    ∧ (breakerGate c3Breaker 61).1.state = CBState.halfOpen :=
  ⟨(C3_breaker_open_gate c3Breaker 30 rfl).1 0 rfl (by norm_num [c3Breaker]) ℕ (Except.ok 0),
   ((C3_breaker_open_gate c3Breaker 61 rfl).2 (by decide)).1⟩

/-- Claim C5: with jitter disabled, a rate-limit error carrying a
positive retry-after yields min(retry_after, cap), and any error without
a truthy retry-after yields min(cap, base x multiplier^(n-1)) before
retry attempt n. -/
theorem C5_exponential_delay (p : RetryPolicy) (hj : p.jitter = false) :
    (∀ ra : ℚ, 0 < ra → ∀ (n : ℕ) (rand : ℚ),
      calcDelay p n (PyExc.rateLimitExceeded (some ra)) rand = min ra p.max_delay)
    ∧ (∀ e : PyExc, hasTruthyRetryAfter e = false → ∀ (n : ℕ) (rand : ℚ),
      calcDelay p n e rand =
        min p.max_delay (p.base_delay * p.backoff_multiplier ^ (n - 1))) := by
  constructor
  · intro ra hra n rand
    have htr : hasTruthyRetryAfter (PyExc.rateLimitExceeded (some ra)) = true := by
      simp [hasTruthyRetryAfter]
      exact ne_of_gt hra
    simp [calcDelay, htr]
  · intro e he n rand
    simp [calcDelay, he, hj, min_comm]

/-- The retry policy of the backoff-timing scenario: base 1s, multiplier
2, cap 10s, jitter off. -/
def c5Policy : RetryPolicy := ⟨3, 1, 2, 10, [429], true, false⟩

/-- Witness for claim C5: before retry attempt 3 the backoff delay is
1 x 2^2 = 4 and a retry-after of 7 overrides it to 7. -/
theorem C5_witness :
    calcDelay c5Policy 3 (PyExc.rateLimitExceeded (some 7)) 0 = 7
    ∧ calcDelay c5Policy 3 PyExc.serverError 0 = 4 := by
  have h := C5_exponential_delay c5Policy rfl
  constructor
  · rw [h.1 7 (by norm_num) 3 0]
    norm_num [c5Policy]
  · rw [h.2 PyExc.serverError rfl 3 0]
    norm_num [c5Policy]

/-- The attempts counter of the exponential loop never exceeds
max_retries + 1. -/
theorem expRetryLoop_attempts_le (p : RetryPolicy) (f : ℕ → Except PyExc Unit) :
    ∀ (n attempts : ℕ), attempts ≤ p.max_retries + 1 → p.max_retries + 1 - attempts ≤ n →
      (expRetryLoop p f attempts).attempts_made ≤ p.max_retries + 1 := by
  intro n
  induction n with
  | zero =>
    intro attempts h1 h2
    rw [expRetryLoop]
    split
    · omega
    · exact h1
  | succ n ih =>
    intro attempts h1 h2
    rw [expRetryLoop]
    split
    · rename_i hle
      cases hf : f attempts with
      | ok v => exact Nat.succ_le_succ hle
      | error e =>
        dsimp only
        split
        · exact Nat.succ_le_succ hle
        · exact ih (attempts + 1) (by omega) (by omega)
    · exact h1

/-- The attempts counter of the linear loop never exceeds
max_retries + 1. -/
theorem linRetryLoop_attempts_le (p : RetryPolicy) (f : ℕ → Except PyExc Unit) :
    ∀ (n attempts : ℕ), attempts ≤ p.max_retries + 1 → p.max_retries + 1 - attempts ≤ n →
      (linRetryLoop p f attempts).attempts_made ≤ p.max_retries + 1 := by
  intro n
  induction n with
  | zero =>
    intro attempts h1 h2
    rw [linRetryLoop]
    split
    · omega
    · exact h1
  | succ n ih =>
    intro attempts h1 h2
    rw [linRetryLoop]
    split
    · rename_i hle
      cases hf : f attempts with
      | ok v => exact Nat.succ_le_succ hle
      | error e =>
        dsimp only
        split
        · exact Nat.succ_le_succ hle
        · exact ih (attempts + 1) (by omega) (by omega)
    · exact h1

/-- Claim C4: for every policy and every sequence of wrapped-call
outcomes, both retry executors report attempts_made at most
max_retries + 1. -/
theorem C4_retry_attempts_bound (p : RetryPolicy)
    (f g : ℕ → Except PyExc Unit) :
    (execWithRetryExp p f).attempts_made ≤ p.max_retries + 1
    ∧ (execWithRetryLin p g).attempts_made ≤ p.max_retries + 1 :=
  ⟨expRetryLoop_attempts_le p f (p.max_retries + 1) 0 (by omega) (by omega),
   linRetryLoop_attempts_le p g (p.max_retries + 1) 0 (by omega) (by omega)⟩

/-- Python min(list, key) keeps the first element whose key is minimal:
the fold of _calculate_recommended_rate returns its seed or a list
element, and its key is at most every key seen. -/
theorem foldlMin_spec (ls : List RateLimit) (a : RateLimit) :
    (ls.foldl (fun acc x => if rps x < rps acc then x else acc) a = a
      ∨ ls.foldl (fun acc x => if rps x < rps acc then x else acc) a ∈ ls)
    ∧ rps (ls.foldl (fun acc x => if rps x < rps acc then x else acc) a) ≤ rps a
    ∧ ∀ x ∈ ls, rps (ls.foldl (fun acc x => if rps x < rps acc then x else acc) a) ≤ rps x := by
  induction ls generalizing a with
  | nil => simp
  | cons x xs ih =>
    simp only [List.foldl_cons]
    by_cases h : rps x < rps a
    · rw [if_pos h]
      obtain ⟨hmem, hle, hall⟩ := ih x
      refine ⟨?_, ?_, ?_⟩
      · rcases hmem with h1 | h1
        · exact Or.inr (by rw [h1]; exact List.mem_cons_self x xs)
        · exact Or.inr (List.mem_cons_of_mem x h1)
      · exact le_trans hle (le_of_lt h)
      · intro y hy
        rcases List.mem_cons.mp hy with rfl | hy2
        · exact hle
        · exact hall y hy2
    · rw [if_neg h]
      obtain ⟨hmem, hle, hall⟩ := ih a
      refine ⟨?_, ?_, ?_⟩
      · rcases hmem with h1 | h1
        · exact Or.inl h1
        · exact Or.inr (List.mem_cons_of_mem x h1)
      · exact hle
      · intro y hy
        rcases List.mem_cons.mp hy with rfl | hy2
        · exact le_trans hle (not_lt.mp h)
        · exact hall y hy2

/-- Claim C1 as amended: for every nonempty list of detected limits, the
recommended rate is max(1, int(L.limit x 0.9)) where L is a limit of
minimal requests-per-second (the first such, as Python min works) - it is
anchored to the minimal-rate limit rather than the minimal ceiling - and
is therefore always at least 1. -/
theorem C1_recommended_rate (limits : List RateLimit) (hne : limits ≠ []) :
    ∃ m ∈ limits, (∀ l ∈ limits, rps m ≤ rps l)
      ∧ calcRecommendedRate limits = max 1 (pyTrunc ((m.limit : ℚ) * (9 / 10)))
      ∧ 1 ≤ calcRecommendedRate limits := by
  match limits with
  | [] => exact absurd rfl hne
  | l :: ls =>
    obtain ⟨hmem, hle, hall⟩ := foldlMin_spec ls l
    refine ⟨ls.foldl (fun acc x => if rps x < rps acc then x else acc) l, ?_, ?_, rfl, ?_⟩
    · rcases hmem with h1 | h1
      · rw [h1]; exact List.mem_cons_self l ls
      · exact List.mem_cons_of_mem l h1
    · intro y hy
      rcases List.mem_cons.mp hy with rfl | hy2
      · exact hle
      · exact hall y hy2
    · exact le_max_left 1 _

/-- Witness for claim C1: the amended characterization instantiated on a
single disclosed limit of 1 request per minute (where the recommendation
is clamped up to 1). -/
theorem C1_witness :
    ∃ m ∈ [(⟨1, 1, none, 60, .headers⟩ : RateLimit)],
      (∀ l ∈ [(⟨1, 1, none, 60, .headers⟩ : RateLimit)], rps m ≤ rps l)
      ∧ calcRecommendedRate [⟨1, 1, none, 60, .headers⟩] =
          max 1 (pyTrunc ((m.limit : ℚ) * (9 / 10)))
      ∧ 1 ≤ calcRecommendedRate [⟨1, 1, none, 60, .headers⟩] :=
  C1_recommended_rate [⟨1, 1, none, 60, .headers⟩] (List.cons_ne_nil _ _)

/-- First-some choice on optional limits, used to state the last-write
behaviour of the tier slots. -/
def orElseO (a b : Option RateLimit) : Option RateLimit :=
  match a with
  | some x => some x
  | none => b

/-- The last limit of the list whose window matches. -/
def lastLimitFor (limits : List RateLimit) (w : ℤ) : Option RateLimit :=
  (limits.filter (fun l => l.window_seconds == w)).getLast?

theorem orElseO_some (x : RateLimit) (b : Option RateLimit) :
    orElseO (some x) b = some x := rfl

theorem orElseO_none (b : Option RateLimit) : orElseO none b = b := rfl

theorem orElseO_assoc (a b c : Option RateLimit) :
    orElseO (orElseO a b) c = orElseO a (orElseO b c) := by
  cases a <;> rfl

theorem getLast?_cons_orElseO (x : RateLimit) (xs : List RateLimit) :
    (x :: xs).getLast? = orElseO xs.getLast? (some x) := by
  induction xs generalizing x with
  | nil => rfl
  | cons y ys ih =>
    rw [List.getLast?_cons_cons, ih y]
    cases hys : ys.getLast? <;> rfl

theorem assignStep_ten (r : MultiTierResult) (l : RateLimit) :
    (assignStep r l).ten_second_limit =
      if l.window_seconds = 10 then some l else r.ten_second_limit := by
  unfold assignStep
  split_ifs <;> simp_all

theorem assignStep_minute (r : MultiTierResult) (l : RateLimit) :
    (assignStep r l).minute_limit =
      if l.window_seconds = 60 then some l else r.minute_limit := by
  unfold assignStep
  split_ifs <;> simp_all

theorem assignStep_fifteen (r : MultiTierResult) (l : RateLimit) :
    (assignStep r l).fifteen_minute_limit =
      if l.window_seconds = 900 then some l else r.fifteen_minute_limit := by
  unfold assignStep
  split_ifs <;> simp_all

theorem assignStep_hour (r : MultiTierResult) (l : RateLimit) :
    (assignStep r l).hour_limit =
      if l.window_seconds = 3600 then some l else r.hour_limit := by
  unfold assignStep
  split_ifs <;> simp_all

theorem assignStep_day (r : MultiTierResult) (l : RateLimit) :
    (assignStep r l).day_limit =
      if l.window_seconds = 86400 then some l else r.day_limit := by
  unfold assignStep
  split_ifs <;> simp_all

/-- Each window slot of the assignment fold ends up holding the LAST
limit of that window in the list (or its previous value when none
matches). -/
theorem assign_slot_aux (w : ℤ) (get : MultiTierResult → Option RateLimit)
    (hstep : ∀ r l, get (assignStep r l) =
      if l.window_seconds = w then some l else get r) :
    ∀ (limits : List RateLimit) (r : MultiTierResult),
      get (assignLimitsToTiers r limits) = orElseO (lastLimitFor limits w) (get r) := by
  intro limits
  induction limits with
  | nil =>
    intro r
    simp [assignLimitsToTiers, lastLimitFor, orElseO]
  | cons l ls ih =>
    intro r
    have hfold : assignLimitsToTiers r (l :: ls) =
        assignLimitsToTiers (assignStep r l) ls := by
      simp [assignLimitsToTiers, List.foldl_cons]
    rw [hfold, ih, hstep]
    by_cases h : l.window_seconds = w
    · have hfil : lastLimitFor (l :: ls) w = orElseO (lastLimitFor ls w) (some l) := by
        unfold lastLimitFor
        rw [List.filter_cons, if_pos (by simpa using h)]
        exact getLast?_cons_orElseO l _
      rw [if_pos h, hfil, orElseO_assoc]
      rfl
    · have hfil : lastLimitFor (l :: ls) w = lastLimitFor ls w := by
        unfold lastLimitFor
        rw [List.filter_cons, if_neg (by simpa using h)]
      rw [if_neg h, hfil]

/-- Claim C7 as amended: each per-tier slot of the merged result holds
the LAST limit of its window in the merged list (header limits come
first, so a probe-derived limit overwrites a header-derived one for the
same window regardless of which ceiling is lower), and a consistency
warning is produced only for an adjacent pair, in window-sorted order,
whose earlier requests-per-second exceeds the later one by more than ten
percent - not for same-window disagreement as such. -/
theorem C7_slots_last_write (r : MultiTierResult) (limits : List RateLimit) :
    (assignLimitsToTiers r limits).ten_second_limit =
      orElseO (lastLimitFor limits 10) r.ten_second_limit
    ∧ (assignLimitsToTiers r limits).minute_limit =
      orElseO (lastLimitFor limits 60) r.minute_limit
    ∧ (assignLimitsToTiers r limits).fifteen_minute_limit =
      orElseO (lastLimitFor limits 900) r.fifteen_minute_limit
    ∧ (assignLimitsToTiers r limits).hour_limit =
      orElseO (lastLimitFor limits 3600) r.hour_limit
    ∧ (assignLimitsToTiers r limits).day_limit =
      orElseO (lastLimitFor limits 86400) r.day_limit
    ∧ ∀ p ∈ validateConsistency limits, rps p.1 > rps p.2 * (11 / 10) :=
  ⟨assign_slot_aux 10 (·.ten_second_limit) assignStep_ten limits r,
   assign_slot_aux 60 (·.minute_limit) assignStep_minute limits r,
   assign_slot_aux 900 (·.fifteen_minute_limit) assignStep_fifteen limits r,
   assign_slot_aux 3600 (·.hour_limit) assignStep_hour limits r,
   assign_slot_aux 86400 (·.day_limit) assignStep_day limits r,
   by
    intro p hp
    unfold validateConsistency at hp
    split_ifs at hp with hlen
    · exact absurd hp (List.not_mem_nil p)
    · exact of_decide_eq_true (List.mem_filter.mp hp).2⟩

/-- A modelled random.choice always returns a member of a nonempty
list. -/
theorem pickAt_mem (l : List String) (h : l ≠ []) (i : ℕ) : pickAt l i ∈ l := by
  unfold pickAt
  have hlen : 0 < l.length := List.length_pos.mpr h
  have hm : i % l.length < l.length := Nat.mod_lt _ hlen
  rw [List.getD_eq_get l "" hm]
  exact List.get_mem l _ hm

/-- The pattern filter only removes endpoints. -/
theorem filterPatterns_sub (hist l : List String) :
    ∀ x ∈ filterPatterns hist l, x ∈ l := by
  intro x hx
  unfold filterPatterns at hx
  split_ifs at hx with h
  · exact hx
  · rcases hfind : (List.range (hist.length - 3)).find?
        (fun i => (hist.drop i).take 2 == (hist.drop (i + 2)).take 2) with _ | i
    · rw [hfind] at hx
      exact hx
    · rw [hfind] at hx
      dsimp only at hx
      rcases hdrop : (hist.drop i).take 2 with _ | ⟨e, rest⟩
      · rw [hdrop] at hx
        exact hx
      · rw [hdrop] at hx
        exact (List.mem_filter.mp hx).1

/-- When the last max_consecutive_same history entries all equal e, the
consecutive-repeat filter removes exactly e. -/
theorem filterConsecutive_eq (cfg : PatternCfg) (hist endpoints : List String)
    (e : String) (h1 : 1 ≤ cfg.max_consecutive_same)
    (h2 : cfg.max_consecutive_same ≤ hist.length)
    (h3 : pyLastSlice hist cfg.max_consecutive_same =
      List.replicate cfg.max_consecutive_same e) :
    filterConsecutiveRepeats cfg hist endpoints = endpoints.filter (· ≠ e) := by
  unfold filterConsecutiveRepeats
  rw [if_neg (by omega), h3]
  rcases hn : cfg.max_consecutive_same with _ | k
  · omega
  · rw [List.replicate_succ]
    dsimp only
    have hc : (List.replicate k e).all (fun x => x == e) = true := by
      rw [List.all_eq_true]
      intro x hx
      simp [List.eq_of_mem_replicate hx]
    rw [if_pos hc]

/-- Claim C9 as amended: the pattern-avoiding strategy avoids extending a
run of max_consecutive_same only on the selections where the
randomization draw does not fire (it is at least the randomization
factor) and the filters leave at least one candidate; under those
conditions, with at least two endpoints, the returned endpoint differs
from the one that just ran max_consecutive_same times. (The
counterexample shows the randomization branch violates the unconditional
claim.) -/
theorem C9_no_stutter_amended (cfg : PatternCfg) (hist endpoints : List String)
    (e : String) (d : RotDraw)
    (h1 : 1 ≤ cfg.max_consecutive_same)
    (h2 : cfg.max_consecutive_same ≤ hist.length)
    (h3 : pyLastSlice hist cfg.max_consecutive_same =
      List.replicate cfg.max_consecutive_same e)
    (h4 : cfg.randomization_factor ≤ d.r)
    (h5 : 2 ≤ endpoints.length)
    (h6 : availAfterFilters cfg hist endpoints ≠ []) :
    ∀ ep hist2, patternNext cfg hist endpoints d = some (ep, hist2) → ep ≠ e := by
  match endpoints, h5 with
  | a :: b :: rest, _ =>
    intro ep hist2 hstep
    have havail : ∀ x ∈ availAfterFilters cfg hist (a :: b :: rest),
        x ∈ (a :: b :: rest).filter (· ≠ e) := by
      intro x hx
      unfold availAfterFilters at hx
      rw [filterConsecutive_eq cfg hist _ e h1 h2 h3] at hx
      split_ifs at hx with hcase
      · exact filterPatterns_sub hist _ x hx
      · exact hx
    have hep : pickAt (availAfterFilters cfg hist (a :: b :: rest)) d.iAvail = ep := by
      unfold patternNext at hstep
      dsimp only at hstep
      rw [if_neg h6, if_neg (not_lt.mpr h4)] at hstep
      injection hstep with hpair
      exact congrArg Prod.fst hpair
    have hmem : ep ∈ availAfterFilters cfg hist (a :: b :: rest) := by
      rw [← hep]
      exact pickAt_mem _ h6 _
    have := havail ep hmem
    have hne := (List.mem_filter.mp this).2
    simpa using hne

unseal Rat.mul Rat.inv Rat.add Rat.sub in
/-- Witness for claim C9: run history b, a, a with max_consecutive_same
= 2 and a draw of 0.5 that skips the randomization branch: the strategy
picks b, not a. -/
theorem C9_witness :
    patternNext c9Cfg ["b", "a", "a"] ["a", "b"] ⟨1/2, 0, 0⟩ =
      some ("b", ["b", "a", "a", "b"])
    ∧ ∀ ep hist2,
        patternNext c9Cfg ["b", "a", "a"] ["a", "b"] ⟨1/2, 0, 0⟩ = some (ep, hist2) →
          ep ≠ "a" :=
  ⟨by decide,
   C9_no_stutter_amended c9Cfg ["b", "a", "a"] ["a", "b"] "a" ⟨1/2, 0, 0⟩
     (by decide) (by decide) (by decide) (by decide) (by decide) (by decide)⟩

/-- Split a successful Except bind into a successful first stage and a
successful continuation. -/
theorem bind_ok {α β : Type} (x : Except String α) (f : α → Except String β) (b : β)
    (h : x >>= f = Except.ok b) : ∃ a, x = Except.ok a ∧ f a = Except.ok b := by
  cases x with
  | error e =>
    have h2 : (Except.error e : Except String β) = Except.ok b := h
    exact Except.noConfusion h2
  | ok a => exact ⟨a, rfl, h⟩

/-- An Except bind is successful when its first stage is and its
continuation always is. -/
theorem isOk_bind {α β : Type} (x : Except String α) (f : α → Except String β)
    (hx : ∃ a, x = Except.ok a) (hf : ∀ a, (f a).isOk = true) : (x >>= f).isOk = true := by
  obtain ⟨a, ha⟩ := hx
  rw [ha]
  exact hf a

/-- The final match of _extract_basic_limit maps both construction
outcomes to a plain return. -/
theorem basicFinish_isOk (x : Except String RateLimit) :
    (match x with
     | Except.ok rl => pure (some rl)
     | Except.error _ => (pure none : Except String (Option RateLimit))).isOk = true := by
  cases x <;> rfl

/-- A header step that succeeds either leaves an accumulator field
unchanged or stores a parsed value whose header name satisfies the
branch condition. -/
theorem tierScanStep_cases (patterns : List String) (st : TierScan) (kv : String × String) :
    ∀ st2, tierScanStep patterns st kv = .ok st2 →
      (st2.limit_value = st.limit_value
        ∨ ∃ n : ℤ, pyInt kv.2 = some n ∧ st2.limit_value = some n
          ∧ strIn "limit" (pyLower kv.1) = true ∧ strIn "remaining" (pyLower kv.1) = false)
      ∧ (st2.remaining_value = st.remaining_value
        ∨ ∃ n : ℤ, pyInt kv.2 = some n ∧ st2.remaining_value = some n
          ∧ strIn "remaining" (pyLower kv.1) = true) := by
  intro st2 hok
  unfold tierScanStep at hok
  dsimp only at hok
  by_cases hpat : (patterns.any (fun p => strIn (pyLower p) (pyLower kv.1))) = true
  · rw [if_pos hpat] at hok
    by_cases hlim : strIn "limit" (pyLower kv.1) = true ∧ ¬ strIn "remaining" (pyLower kv.1) = true
    · rw [if_pos hlim] at hok
      rcases hp : pyInt kv.2 with _ | n
      · rw [hp] at hok
        injection hok with h2
        subst h2
        exact ⟨Or.inl rfl, Or.inl rfl⟩
      · rw [hp] at hok
        injection hok with h2
        subst h2
        exact ⟨Or.inr ⟨n, rfl, rfl, hlim.1, Bool.eq_false_iff.mpr hlim.2⟩, Or.inl rfl⟩
    · rw [if_neg hlim] at hok
      by_cases hrem : strIn "remaining" (pyLower kv.1) = true
      · rw [if_pos hrem] at hok
        rcases hp : pyInt kv.2 with _ | n
        · rw [hp] at hok
          injection hok with h2
          subst h2
          exact ⟨Or.inl rfl, Or.inl rfl⟩
        · rw [hp] at hok
          injection hok with h2
          subst h2
          exact ⟨Or.inl rfl, Or.inr ⟨n, rfl, rfl, hrem⟩⟩
      · rw [if_neg hrem] at hok
        by_cases hres : strIn "reset" (pyLower kv.1) = true
        · rw [if_pos hres] at hok
          rcases hp : pyInt kv.2 with _ | n
          · rw [hp] at hok
            injection hok with h2
            subst h2
            exact ⟨Or.inl rfl, Or.inl rfl⟩
          · rw [hp] at hok
            dsimp only at hok
            rcases hc : classifyTs n with _ | _ | _
            all_goals rw [hc] at hok
            · injection hok with h2
              subst h2
              exact ⟨Or.inl rfl, Or.inl rfl⟩
            · injection hok with h2
              subst h2
              exact ⟨Or.inl rfl, Or.inl rfl⟩
            · exact Except.noConfusion hok
        · rw [if_neg hres] at hok
          injection hok with h2
          subst h2
          exact ⟨Or.inl rfl, Or.inl rfl⟩
  · rw [if_neg hpat] at hok
    injection hok with h2
    subst h2
    exact ⟨Or.inl rfl, Or.inl rfl⟩

/-- A header step succeeds whenever any parseable value under a
reset-named header is within the 64-bit range the platform conversion
tolerates. -/
theorem tierScanStep_ok (patterns : List String) (st : TierScan) (kv : String × String)
    (hsafe : ∀ n : ℤ, pyInt kv.2 = some n → strIn "reset" (pyLower kv.1) = true →
      classifyTs n ≠ TsOutcome.fatal) :
    ∃ st2, tierScanStep patterns st kv = .ok st2 := by
  unfold tierScanStep
  dsimp only
  by_cases hpat : (patterns.any (fun p => strIn (pyLower p) (pyLower kv.1))) = true
  · rw [if_pos hpat]
    by_cases hlim : strIn "limit" (pyLower kv.1) = true ∧ ¬ strIn "remaining" (pyLower kv.1) = true
    · rw [if_pos hlim]
      rcases hp : pyInt kv.2 with _ | n
      · exact ⟨st, rfl⟩
      · exact ⟨_, rfl⟩
    · rw [if_neg hlim]
      by_cases hrem : strIn "remaining" (pyLower kv.1) = true
      · rw [if_pos hrem]
        rcases hp : pyInt kv.2 with _ | n
        · exact ⟨st, rfl⟩
        · exact ⟨_, rfl⟩
      · rw [if_neg hrem]
        by_cases hresn : strIn "reset" (pyLower kv.1) = true
        · rw [if_pos hresn]
          rcases hp : pyInt kv.2 with _ | n
          · exact ⟨st, rfl⟩
          · dsimp only
            rcases hc : classifyTs n with _ | _ | _
            · exact ⟨_, rfl⟩
            · exact ⟨st, rfl⟩
            · exact absurd hc (hsafe n hp hresn)
        · rw [if_neg hresn]
          exact ⟨st, rfl⟩
  · rw [if_neg hpat]
    exact ⟨st, rfl⟩

/-- Invariant of the header loop of _extract_tier_limit: any predicates
preserved by the possible writes hold of the final limit and remaining
values of a successful scan. -/
theorem tierScanRun_inv (patterns : List String) (Q1 Q2 : Option ℤ → Prop) :
    ∀ (hs : Headers) (st : TierScan),
      Q1 st.limit_value → Q2 st.remaining_value →
      (∀ kv ∈ hs, ∀ n : ℤ, pyInt kv.2 = some n →
        ((strIn "limit" (pyLower kv.1) = true ∧ strIn "remaining" (pyLower kv.1) = false) →
          Q1 (some n))
        ∧ (strIn "remaining" (pyLower kv.1) = true → Q2 (some n))) →
      ∀ st2, tierScanRun patterns st hs = .ok st2 →
        Q1 st2.limit_value ∧ Q2 st2.remaining_value := by
  intro hs
  induction hs with
  | nil =>
    intro st h1 h2 _ st2 hrun
    injection hrun with h3
    subst h3
    exact ⟨h1, h2⟩
  | cons kv rest ih =>
    intro st h1 h2 hall st2 hrun
    have hrun2 : (tierScanStep patterns st kv >>= fun st3 =>
        tierScanRun patterns st3 rest) = .ok st2 := hrun
    obtain ⟨stm, hstep, hrest⟩ := bind_ok _ _ _ hrun2
    obtain ⟨hc1, hc2⟩ := tierScanStep_cases patterns st kv stm hstep
    refine ih stm ?_ ?_ (fun kv2 hkv2 n hn => hall kv2 (List.mem_cons_of_mem kv hkv2) n hn)
      st2 hrest
    · rcases hc1 with heq | ⟨n, hn, heq, hl, hr⟩
      · rw [heq]; exact h1
      · rw [heq]; exact (hall kv (List.mem_cons_self kv rest) n hn).1 ⟨hl, hr⟩
    · rcases hc2 with heq | ⟨n, hn, heq, hr⟩
      · rw [heq]; exact h2
      · rw [heq]; exact (hall kv (List.mem_cons_self kv rest) n hn).2 hr

/-- The header loop succeeds whenever every parseable value under a
reset-named header is within the 64-bit conversion range. -/
theorem tierScanRun_ok (patterns : List String) :
    ∀ (hs : Headers) (st : TierScan),
      (∀ kv ∈ hs, ∀ n : ℤ, pyInt kv.2 = some n → strIn "reset" (pyLower kv.1) = true →
        classifyTs n ≠ TsOutcome.fatal) →
      ∃ st2, tierScanRun patterns st hs = .ok st2 := by
  intro hs
  induction hs with
  | nil =>
    intro st _
    exact ⟨st, rfl⟩
  | cons kv rest ih =>
    intro st hall
    obtain ⟨stm, hstep⟩ := tierScanStep_ok patterns st kv
      (fun n hn hr => hall kv (List.mem_cons_self kv rest) n hn hr)
    obtain ⟨st2, hrest⟩ := ih stm
      (fun kv2 hkv2 n hn hr => hall kv2 (List.mem_cons_of_mem kv hkv2) n hn hr)
    refine ⟨st2, ?_⟩
    show (tierScanStep patterns st kv >>= fun st3 => tierScanRun patterns st3 rest) = .ok st2
    rw [hstep]
    exact hrest

/-- Pydantic accepts an in-range RateLimit, clamping remaining down to
the ceiling. -/
theorem mkRateLimit_ok_of (limit remaining : ℤ) (reset : Option ℤ) (window : ℤ)
    (via : DetectionMethod) (hlim : 0 < limit) (hrem : 0 ≤ remaining) (hwin : 0 < window) :
    mkRateLimit limit remaining reset window via =
      .ok ⟨limit, if remaining > limit then limit else remaining, reset, window, via⟩ := by
  unfold mkRateLimit
  rw [if_neg (by omega), if_neg (by omega), if_neg (by omega)]

/-- A record pydantic accepts from equal limit and remaining arguments
reports remaining equal to its ceiling. -/
theorem mkRateLimit_self_remaining (limit : ℤ) (reset : Option ℤ) (window : ℤ)
    (via : DetectionMethod) (rl : RateLimit)
    (h : mkRateLimit limit limit reset window via = .ok rl) :
    rl.remaining = rl.limit := by
  unfold mkRateLimit at h
  split_ifs at h
  all_goals first
  | exact Except.noConfusion h
  | rw [← Except.ok.inj h]

/-- _extract_tier_limit cannot raise when every parseable limit-named
value is positive, every parseable remaining-named value is
non-negative, and every parseable reset-named value lies in the
datetime range of the platform conversion. -/
theorem extractTierLimit_isOk (hs : Headers) (patterns : List String) (w : ℤ)
    (hw : 0 < w)
    (hvals : ∀ kv ∈ hs, ∀ n : ℤ, pyInt kv.2 = some n →
      ((strIn "limit" (pyLower kv.1) = true ∧ strIn "remaining" (pyLower kv.1) = false) → 0 < n)
      ∧ (strIn "remaining" (pyLower kv.1) = true → 0 ≤ n)
      ∧ (strIn "reset" (pyLower kv.1) = true → classifyTs n ≠ TsOutcome.fatal)) :
    (extractTierLimit hs patterns w).isOk = true := by
  obtain ⟨st, hrun⟩ := tierScanRun_ok patterns hs ⟨none, none, none⟩
    (fun kv hkv n hn hr => (hvals kv hkv n hn).2.2 hr)
  obtain ⟨hq1, hq2⟩ := tierScanRun_inv patterns
    (fun o => ∀ n : ℤ, o = some n → 0 < n) (fun o => ∀ n : ℤ, o = some n → 0 ≤ n)
    hs ⟨none, none, none⟩ (by intro n h; cases h) (by intro n h; cases h)
    (by
      intro kv hkv n hn
      refine ⟨fun hc m hm => ?_, fun hc m hm => ?_⟩
      · cases hm; exact (hvals kv hkv n hn).1 hc
      · cases hm; exact (hvals kv hkv n hn).2.1 hc)
    st hrun
  have hext : extractTierLimit hs patterns w =
      match st.limit_value with
      | none => Except.ok none
      | some lv =>
        (mkRateLimit lv (st.remaining_value.getD lv) st.reset_time w .headers).map some := by
    simp only [extractTierLimit, hrun]
    rfl
  rw [hext]
  cases hlv : st.limit_value with
  | none => rfl
  | some lv =>
    have hlvpos : 0 < lv := hq1 lv hlv
    have hrempos : 0 ≤ st.remaining_value.getD lv := by
      cases hr : st.remaining_value with
      | none => exact le_of_lt hlvpos
      | some r => exact hq2 r hr
    dsimp only
    rw [mkRateLimit_ok_of _ _ _ _ _ hlvpos hrempos hw]
    rfl

/-- The tier-list loop cannot raise when no individual tier extraction
raises. -/
theorem extractTierList_isOk (hs : Headers) :
    ∀ ts : List (ℤ × List String),
      (∀ t ∈ ts, (extractTierLimit hs t.2 t.1).isOk = true) →
      (extractTierList hs ts).isOk = true := by
  intro ts
  induction ts with
  | nil => intro _; rfl
  | cons t ts ih =>
    intro hall
    have h1 := hall t (List.mem_cons_self t ts)
    have h2 := ih (fun t2 ht2 => hall t2 (List.mem_cons_of_mem t ht2))
    rcases he : extractTierLimit hs t.2 t.1 with e | o
    · rw [he] at h1
      simp [Except.isOk, Except.toBool] at h1
    · rcases hr : extractTierList hs ts with e2 | m
      · rw [hr] at h2
        simp [Except.isOk, Except.toBool] at h2
      · simp only [extractTierList, he, hr]
        cases o <;> rfl

/-- Members of the tier-list result come from successful per-tier
extractions. -/
theorem extractTierList_mem (hs : Headers) (P : RateLimit → Prop) :
    ∀ ts : List (ℤ × List String),
      (∀ t ∈ ts, ∀ rl, extractTierLimit hs t.2 t.1 = .ok (some rl) → P rl) →
      ∀ m, extractTierList hs ts = .ok m → ∀ rl ∈ m, P rl := by
  intro ts
  induction ts with
  | nil =>
    intro _ m hm rl hrl
    cases hm
    exact absurd hrl (List.not_mem_nil rl)
  | cons t ts ih =>
    intro hall m hm rl hrl
    rcases he : extractTierLimit hs t.2 t.1 with e | o
    · rw [show extractTierList hs (t :: ts) = .error e by
        simp only [extractTierList, he]; rfl] at hm
      cases hm
    · rcases hr : extractTierList hs ts with e2 | m2
      · rw [show extractTierList hs (t :: ts) = .error e2 by
          simp only [extractTierList, he, hr]; cases o <;> rfl] at hm
        cases hm
      · have hrec := ih (fun t2 ht2 => hall t2 (List.mem_cons_of_mem t ht2)) m2 hr
        cases o with
        | none =>
          rw [show extractTierList hs (t :: ts) = .ok m2 by
            simp only [extractTierList, he, hr]; rfl] at hm
          cases hm
          exact hrec rl hrl
        | some rl0 =>
          rw [show extractTierList hs (t :: ts) = .ok (rl0 :: m2) by
            simp only [extractTierList, he, hr]; rfl] at hm
          cases hm
          rcases List.mem_cons.mp hrl with rfl | hrl2
          · exact hall t (List.mem_cons_self t ts) rl he
          · exact hrec rl hrl2

/-- When every tier extraction yields nothing, the tier-list loop yields
the empty list. -/
theorem extractTierList_allNone (hs : Headers) :
    ∀ ts : List (ℤ × List String),
      (∀ t ∈ ts, extractTierLimit hs t.2 t.1 = .ok none) →
      extractTierList hs ts = .ok [] := by
  intro ts
  induction ts with
  | nil => intro _; rfl
  | cons t ts ih =>
    intro hall
    have h1 := hall t (List.mem_cons_self t ts)
    have h2 := ih (fun t2 ht2 => hall t2 (List.mem_cons_of_mem t ht2))
    simp only [extractTierList, h1, h2]
    rfl

/-- A successful dict.get comes from a binding of the map. -/
theorem hget_mem (hs : Headers) (k v : String) (h : hget hs k = some v) : (k, v) ∈ hs := by
  unfold hget at h
  cases hf : hs.find? (fun p => p.1 == k) with
  | none => rw [hf] at h; cases h
  | some p =>
    rw [hf] at h
    have hk : p.1 = k := by
      have := List.find?_some hf
      exact beq_iff_eq.mp this
    have hv : p.2 = v := by
      simpa using h
    have hmem := List.mem_of_find?_eq_some hf
    have hp : p = (k, v) := by
      cases p
      simp_all
    rw [← hp]
    exact hmem

/-- A truthy result of the or of two dict.gets is a value bound in the
map under one of the two keys. -/
theorem pyOrStr_hget_mem (hs : Headers) (k1 k2 v : String)
    (h : pyOrStr (hget hs k1) (hget hs k2) = some v) :
    (k1, v) ∈ hs ∨ (k2, v) ∈ hs := by
  unfold pyOrStr at h
  split_ifs at h
  · exact Or.inl (hget_mem hs k1 v h)
  · exact Or.inr (hget_mem hs k2 v h)

/-- When no header value parses as an integer, the basic extraction
yields nothing without raising. -/
theorem extractBasicLimit_none_of_unparseable (hs : Headers)
    (h : ∀ kv ∈ hs, pyInt kv.2 = none) : extractBasicLimit hs = .ok none := by
  unfold extractBasicLimit
  dsimp only
  rcases hls : pyOrStr (hget hs "X-RateLimit-Limit") (hget hs "X-Rate-Limit-Limit") with _ | v
  · rw [if_pos (by simp [pyTruthy])]
    rfl
  · by_cases ht : pyTruthy (some v) = true
    · rw [if_neg (by simp [ht])]
      have hv : pyInt v = none := by
        rcases pyOrStr_hget_mem hs _ _ v hls with hm | hm
        · exact h _ hm
        · exact h _ hm
      simp only [Option.getD_some, hv]
      rfl
    · rw [if_pos ht]
      rfl

/-- The final construction of _extract_basic_limit, run with equal
limit and remaining arguments, reports remaining equal to the ceiling
whenever it returns a record. -/
theorem basicFinish_remaining (limit : ℤ) (rt : Option ℤ) (w : ℤ) (rl : RateLimit)
    (h : (match mkRateLimit limit limit rt w DetectionMethod.headers with
          | Except.ok rl2 => pure (some rl2)
          | Except.error _ => (pure none : Except String (Option RateLimit))) =
        Except.ok (some rl)) :
    rl.remaining = rl.limit := by
  split at h
  · rename_i rl2 heq
    have hrl2 : rl2 = rl := Option.some.inj (Except.ok.inj h)
    rw [← hrl2]
    exact mkRateLimit_self_remaining _ _ _ _ _ heq
  · exact Option.noConfusion (Except.ok.inj h)

/-- With no remaining-named header bound in the map, a successful basic
record reports its ceiling as remaining. -/
theorem extractBasicLimit_remaining_full (hs : Headers)
    (hrem : ∀ kv ∈ hs, strIn "remaining" (pyLower kv.1) = false) :
    ∀ rl, extractBasicLimit hs = .ok (some rl) → rl.remaining = rl.limit := by
  intro rl h
  have h1 : hget hs "X-RateLimit-Remaining" = none := by
    cases hv : hget hs "X-RateLimit-Remaining" with
    | none => rfl
    | some v =>
      have hm := hget_mem hs _ _ hv
      have := hrem _ hm
      rw [show strIn "remaining" (pyLower "X-RateLimit-Remaining") = true from by decide] at this
      cases this
  have h2 : hget hs "X-Rate-Limit-Remaining" = none := by
    cases hv : hget hs "X-Rate-Limit-Remaining" with
    | none => rfl
    | some v =>
      have hm := hget_mem hs _ _ hv
      have := hrem _ hm
      rw [show strIn "remaining" (pyLower "X-Rate-Limit-Remaining") = true from by decide] at this
      cases this
  unfold extractBasicLimit at h
  rw [h1, h2] at h
  dsimp only at h
  rcases hp : pyInt ((pyOrStr (hget hs "X-RateLimit-Limit") (hget hs "X-Rate-Limit-Limit")).getD "")
    with _ | limit
  · rw [hp] at h
    split_ifs at h <;> exact Option.noConfusion (Except.ok.inj h)
  · rw [hp] at h
    rw [show pyTruthy (pyOrStr (none : Option String) none) = false from rfl] at h
    simp only [Bool.false_eq_true, if_false] at h
    by_cases htL : ¬ pyTruthy (pyOrStr (hget hs "X-RateLimit-Limit") (hget hs "X-Rate-Limit-Limit")) = true
    · rw [if_pos htL] at h
      exact Option.noConfusion (Except.ok.inj h)
    · rw [if_neg htL] at h
      by_cases htr : pyTruthy (pyOrStr (hget hs "X-RateLimit-Reset") (hget hs "X-Rate-Limit-Reset")) = true
      · rw [if_pos htr] at h
        split at h
        · obtain ⟨rt, hR, hbody⟩ := bind_ok _ _ _ h
          exact basicFinish_remaining _ _ _ _ hbody
        · obtain ⟨rt, hR, hbody⟩ := bind_ok _ _ _ h
          exact basicFinish_remaining _ _ _ _ hbody
      · rw [if_neg htr] at h
        obtain ⟨rt, hR, hbody⟩ := bind_ok _ _ _ h
        exact basicFinish_remaining _ _ _ _ hbody

/-- Reset tail of _extract_basic_limit: whenever every parseable
reset-named value lies in the datetime range of the platform
conversion, the reset conversion succeeds and the continuation it feeds
decides the outcome. -/
theorem basicResetTail_isOk (hs : Headers)
    (hres : ∀ kv ∈ hs, ∀ n : ℤ, pyInt kv.2 = some n →
      strIn "reset" (pyLower kv.1) = true → classifyTs n = TsOutcome.inRange)
    (cont : Option ℤ → Except String (Option RateLimit))
    (hcont : ∀ y, (cont y).isOk = true) :
    (if pyTruthy (pyOrStr (hget hs "X-RateLimit-Reset") (hget hs "X-Rate-Limit-Reset")) = true then
      match pyInt ((pyOrStr (hget hs "X-RateLimit-Reset") (hget hs "X-Rate-Limit-Reset")).getD "") with
      | some ts => basicResetConvert ts >>= cont
      | none => pure none >>= cont
    else pure none >>= cont).isOk = true := by
  by_cases htr : pyTruthy (pyOrStr (hget hs "X-RateLimit-Reset") (hget hs "X-Rate-Limit-Reset")) = true
  · rw [if_pos htr]
    rcases hrs : pyOrStr (hget hs "X-RateLimit-Reset") (hget hs "X-Rate-Limit-Reset") with _ | v
    · rw [hrs] at htr
      exact absurd htr (by decide)
    · rcases hpv : pyInt ((some v).getD "") with _ | ts
      · exact hcont none
      · have hpv2 : pyInt v = some ts := hpv
        have hconv : classifyTs ts = TsOutcome.inRange := by
          rcases pyOrStr_hget_mem hs _ _ v hrs with hm | hm
          · refine hres _ hm ts hpv2 ?_
            show strIn "reset" (pyLower "X-RateLimit-Reset") = true
            decide
          · refine hres _ hm ts hpv2 ?_
            show strIn "reset" (pyLower "X-Rate-Limit-Reset") = true
            decide
        dsimp only
        refine isOk_bind _ _ ⟨some ts, ?_⟩ hcont
        unfold basicResetConvert
        rw [hconv]
  · rw [if_neg htr]
    exact hcont none

/-- _extract_basic_limit cannot raise when every parseable reset-named
value lies in the datetime range of the platform conversion. -/
theorem extractBasicLimit_isOk (hs : Headers)
    (hres : ∀ kv ∈ hs, ∀ n : ℤ, pyInt kv.2 = some n →
      strIn "reset" (pyLower kv.1) = true → classifyTs n = TsOutcome.inRange) :
    (extractBasicLimit hs).isOk = true := by
  unfold extractBasicLimit
  dsimp only
  by_cases ht : pyTruthy (pyOrStr (hget hs "X-RateLimit-Limit") (hget hs "X-Rate-Limit-Limit")) = true
  · rw [if_neg (by simp [ht])]
    rcases hp : pyInt ((pyOrStr (hget hs "X-RateLimit-Limit") (hget hs "X-Rate-Limit-Limit")).getD "")
      with _ | limit
    · rfl
    · dsimp only
      by_cases htr : pyTruthy (pyOrStr (hget hs "X-RateLimit-Remaining") (hget hs "X-Rate-Limit-Remaining")) = true
      · rw [if_pos htr]
        rcases hpr : pyInt ((pyOrStr (hget hs "X-RateLimit-Remaining") (hget hs "X-Rate-Limit-Remaining")).getD "")
          with _ | remaining
        · rfl
        · dsimp only
          exact basicResetTail_isOk hs hres _ (fun y => basicFinish_isOk _)
      · rw [if_neg htr]
        dsimp only
        exact basicResetTail_isOk hs hres _ (fun y => basicFinish_isOk _)
  · rw [if_pos (by simp [ht])]
    rfl

/-- The validity filter preserves the property that remaining equals the
ceiling. -/
theorem filterValid_fold_remaining :
    ∀ (L : List RateLimit) (acc : List RateLimit × List ℤ),
      (∀ x ∈ L, x.remaining = x.limit) →
      (∀ y ∈ acc.1, y.remaining = y.limit) →
      ∀ rl ∈ (L.foldl filterValidStep acc).1, rl.remaining = rl.limit := by
  intro L
  induction L with
  | nil =>
    intro acc _ hacc rl hrl
    exact hacc rl hrl
  | cons x xs ih =>
    intro acc hL hacc rl hrl
    rw [List.foldl_cons] at hrl
    refine ih (filterValidStep acc x) (fun y hy => hL y (List.mem_cons_of_mem x hy)) ?_ rl hrl
    intro y hy
    have hx := hL x (List.mem_cons_self x xs)
    unfold filterValidStep at hy
    dsimp only at hy
    split_ifs at hy
    all_goals first
    | exact hacc y hy
    | (exfalso; omega)
    | (rcases List.mem_append.mp hy with hy1 | hy1
       · exact hacc y hy1
       · rw [List.mem_singleton.mp hy1]
         exact hx)

/-- extract_rate_limits composed from successful basic and tier stages. -/
theorem extractRateLimits_eq (hs : Headers) (b : Option RateLimit) (m : List RateLimit)
    (hb : extractBasicLimit hs = .ok b) (hm : extractTierList hs tierPatterns = .ok m) :
    extractRateLimits hs = .ok (filterValidLimits (b.toList ++ m)) := by
  simp only [extractRateLimits, extractMultiTierLimits, hb, hm]
  rfl

/-- Claim C6 as amended: the header analyzer raises only when a header
value reaches an unguarded out-of-range conversion: a tier-family
header whose numeric value pydantic rejects, or a reset-named timestamp
outside the range datetime.fromtimestamp tolerates, whose
OverflowError/OSError escapes the ValueError guards. Whenever every
parseable limit-named value is positive, every parseable
remaining-named value is non-negative and every parseable reset-named
value is an in-range timestamp, it returns a list; and a header set in
which no value parses as an integer (non-numeric values are skipped
silently) yields the empty list. -/
theorem C6_extract_no_raise (hs : Headers)
    (hvals : ∀ kv ∈ hs, ∀ n : ℤ, pyInt kv.2 = some n →
      ((strIn "limit" (pyLower kv.1) = true ∧ strIn "remaining" (pyLower kv.1) = false) → 0 < n)
      ∧ (strIn "remaining" (pyLower kv.1) = true → 0 ≤ n)
      ∧ (strIn "reset" (pyLower kv.1) = true → classifyTs n = TsOutcome.inRange)) :
    (extractRateLimits hs).isOk = true
    ∧ ((∀ kv ∈ hs, pyInt kv.2 = none) → extractRateLimits hs = .ok []) := by
  constructor
  · have hbasic : (extractBasicLimit hs).isOk = true :=
      extractBasicLimit_isOk hs (fun kv hkv n hn hr => (hvals kv hkv n hn).2.2 hr)
    have hmulti : (extractTierList hs tierPatterns).isOk = true := by
      refine extractTierList_isOk hs tierPatterns ?_
      intro t ht
      refine extractTierLimit_isOk hs t.2 t.1 ?_ ?_
      · fin_cases ht <;> norm_num
      · intro kv hkv n hn
        refine ⟨(hvals kv hkv n hn).1, (hvals kv hkv n hn).2.1, fun hr => ?_⟩
        rw [(hvals kv hkv n hn).2.2 hr]
        decide
    rcases hb : extractBasicLimit hs with e | b
    · rw [hb] at hbasic
      simp [Except.isOk, Except.toBool] at hbasic
    · rcases hr : extractTierList hs tierPatterns with e | m
      · rw [hr] at hmulti
        simp [Except.isOk, Except.toBool] at hmulti
      · rw [extractRateLimits_eq hs b m hb hr]
        rfl
  · intro hnone
    have hbasic := extractBasicLimit_none_of_unparseable hs hnone
    have hmulti : extractTierList hs tierPatterns = .ok [] := by
      refine extractTierList_allNone hs tierPatterns ?_
      intro t ht
      obtain ⟨st, hrun⟩ := tierScanRun_ok t.2 hs ⟨none, none, none⟩
        (by
          intro kv hkv n hn
          rw [hnone kv hkv] at hn
          cases hn)
      have hlv := (tierScanRun_inv t.2 (fun o => o = none) (fun _ => True)
        hs ⟨none, none, none⟩ rfl trivial
        (by
          intro kv hkv n hn
          rw [hnone kv hkv] at hn
          cases hn)
        st hrun).1
      have hext : extractTierLimit hs t.2 t.1 =
          match st.limit_value with
          | none => Except.ok none
          | some lv =>
            (mkRateLimit lv (st.remaining_value.getD lv) st.reset_time t.1 .headers).map some := by
        simp only [extractTierLimit, hrun]
        rfl
      rw [hext, hlv]
    rw [extractRateLimits_eq hs none [] hbasic hmulti]
    rfl

/-- Witness for claim C6: a single non-numeric limit header is skipped
and the analyzer returns the empty list without raising. -/
theorem C6_witness :
    extractRateLimits [("X-RateLimit-Limit", "abc")] = .ok [] :=
  (C6_extract_no_raise [("X-RateLimit-Limit", "abc")]
    (by
      intro kv hkv n hn
      simp only [List.mem_singleton] at hkv
      subst hkv
      rw [show pyInt "abc" = none from by decide] at hn
      cases hn)).2
    (by
      intro kv hkv
      simp only [List.mem_singleton] at hkv
      subst hkv
      decide)

/-- The tier extraction with no remaining-named header in the map
reports the full ceiling as remaining. -/
theorem extractTierLimit_remaining_full (hs : Headers) (patterns : List String) (w : ℤ)
    (hrem : ∀ kv ∈ hs, strIn "remaining" (pyLower kv.1) = false) :
    ∀ o, extractTierLimit hs patterns w = .ok o → ∀ rl, o = some rl → rl.remaining = rl.limit := by
  intro o ho rl hrl
  have ho2 : (tierScanRun patterns ⟨none, none, none⟩ hs >>= fun st =>
      match st.limit_value with
      | none => pure none
      | some lv =>
        (mkRateLimit lv (st.remaining_value.getD lv) st.reset_time w .headers).map some) =
      .ok o := ho
  obtain ⟨st, hrun, hbody⟩ := bind_ok _ _ _ ho2
  have hq2 := (tierScanRun_inv patterns (fun _ => True) (fun o2 => o2 = none)
    hs ⟨none, none, none⟩ trivial rfl
    (by
      intro kv hkv n hn
      refine ⟨fun _ => trivial, fun hc => ?_⟩
      rw [hrem kv hkv] at hc
      cases hc)
    st hrun).2
  split at hbody
  · have hno : (none : Option RateLimit) = o := Except.ok.inj hbody
    rw [← hno] at hrl
    cases hrl
  · rename_i lv hlv
    rw [hq2] at hbody
    dsimp only [Option.getD_none] at hbody
    rcases hmk : mkRateLimit lv lv st.reset_time w .headers with e | rl2
    · rw [hmk] at hbody
      simp only [Except.map] at hbody
      exact Except.noConfusion hbody
    · rw [hmk] at hbody
      simp only [Except.map] at hbody
      have ho3 : some rl2 = o := Except.ok.inj hbody
      rw [← ho3] at hrl
      have hrl2 : rl2 = rl := Option.some.inj hrl
      rw [← hrl2]
      exact mkRateLimit_self_remaining _ _ _ _ _ hmk

/-- Claim C10: for a header map with a parseable limit header but no
remaining header, every RateLimit the analyzer returns reports
remaining equal to its ceiling (the limit is treated as completely
unused), in the tier path, the basic path, and the final filtered
list. -/
theorem C10_remaining_defaults_to_limit (hs : Headers)
    (hrem : ∀ kv ∈ hs, strIn "remaining" (pyLower kv.1) = false) :
    (∀ (patterns : List String) (w : ℤ) (o : Option RateLimit),
        extractTierLimit hs patterns w = .ok o →
        ∀ rl, o = some rl → rl.remaining = rl.limit)
    ∧ (∀ rl, extractBasicLimit hs = .ok (some rl) → rl.remaining = rl.limit)
    ∧ (∀ L, extractRateLimits hs = .ok L → ∀ rl ∈ L, rl.remaining = rl.limit) := by
  refine ⟨fun patterns w => extractTierLimit_remaining_full hs patterns w hrem,
    extractBasicLimit_remaining_full hs hrem, ?_⟩
  intro L hL rl hrl
  have hL1 : (extractBasicLimit hs >>= fun basic =>
      extractMultiTierLimits hs >>= fun multi =>
      pure (filterValidLimits (basic.toList ++ multi))) = .ok L := hL
  obtain ⟨b, hb, hL2⟩ := bind_ok _ _ _ hL1
  obtain ⟨m, hm, hL3⟩ := bind_ok _ _ _ hL2
  have hLeq : L = filterValidLimits (b.toList ++ m) := (Except.ok.inj hL3).symm
  subst hLeq
  refine filterValid_fold_remaining _ ([], []) ?_ (by simp) rl hrl
  intro x hx
  rcases List.mem_append.mp hx with hx1 | hx1
  · cases b with
    | none => exact absurd hx1 (List.not_mem_nil x)
    | some rb =>
      rw [List.mem_singleton.mp hx1]
      exact extractBasicLimit_remaining_full hs hrem rb hb
  · exact extractTierList_mem hs (fun y => y.remaining = y.limit) tierPatterns
      (fun t ht rl2 h2 => extractTierLimit_remaining_full hs t.2 t.1 hrem (some rl2) h2 rl2 rfl)
      m hm x hx1

/-- Witness for claim C10: a lone X-RateLimit-Limit header of 100 yields
the RateLimit 100/100/60s, whose remaining equals its ceiling. -/
theorem C10_witness :
    (⟨100, 100, none, 60, DetectionMethod.headers⟩ : RateLimit).remaining =
      (⟨100, 100, none, 60, DetectionMethod.headers⟩ : RateLimit).limit :=
  (C10_remaining_defaults_to_limit [("X-RateLimit-Limit", "100")]
    (by
      intro kv hkv
      simp only [List.mem_singleton] at hkv
      subst hkv
      decide)).2.2
    [⟨100, 100, none, 60, DetectionMethod.headers⟩] (by decide)
    ⟨100, 100, none, 60, DetectionMethod.headers⟩ (List.mem_singleton.mpr rfl)

end RLO
